import Mathlib

/-!
# The image screen of the wallpaper app (`src/app/home/image.js`)

A shallow embedding of the `ImageScreen` component's logic: the display-size
computation `getSize`, the derived file name and destination paths, and the three
asynchronous handlers `handleDownloadImage`, `handleShareImage` and `downloadFile`.

The host capabilities the component consumes (permission service, download service,
media library, share sheet, timers, alert and toast surfaces) are not part of the
repository.  Their *answers* are supplied by a `Host` record, and every call the
component makes to them is recorded, in order, in the screen's event log.  A JavaScript
exception is modelled by the `message` of the thrown error (`Except String`); the screen
state survives a throw, exactly as React state does.

JavaScript numbers are IEEE-754 binary64 values.  They are modelled by `F64`: a finite
value is a sign and an exact rational magnitude, and every arithmetic operation rounds
its exact result to the nearest binary64 value, ties to even.
-/

namespace ImageScreen

/-! ## Data model -/

/-- The values of `Platform.OS` in React Native. -/
inductive PlatformOS where
  | ios | android | windows | macos | web
  deriving DecidableEq, Repr

/-- A JavaScript number: `NaN`, an infinity with its sign, or a finite binary64 value
given by its sign and its magnitude (so that `-0` is `fin true 0`). -/
inductive F64 where
  | nan
  | inf (negative : Bool)
  | fin (negative : Bool) (magnitude : ℚ)
  deriving DecidableEq, Repr

/-- The route parameters read by `useLocalSearchParams()`; a parameter that is absent is
`none` (JavaScript `undefined`).  The dimensions are JavaScript numbers. -/
structure Item where
  webformatURL : Option String
  previewURL : Option String
  imageWidth : F64
  imageHeight : F64

/-- The object a resolved `MediaLibrary.createAssetAsync` yields. -/
structure Asset where
  id : String
  uri : String
  deriving DecidableEq, Repr

/-- The argument of `Toast.show`. -/
structure ToastParams where
  type : String
  text1 : String
  position : String
  deriving DecidableEq, Repr

/-- The body of an arrow function handed to `setTimeout`.  The only one in the source is
`() => { FileSystem.deleteAsync(downloadedUri); }`. -/
inductive Callback where
  | deleteAsync (uri : String)
  deriving DecidableEq, Repr

/-- One observable action of the component, in the order the source performs them. -/
inductive Event where
  | setStatus (s : String)
  | requestPermissionsAsync
  | downloadAsync (url : Option String) (fileUri : String)
  | consoleLog (label : String) (value : String)
  | createAssetAsync (localUri : String)
  | createAlbumAsync (albumName : String) (asset : Asset) (copyAsset : Bool)
  | setTimeout (cb : Callback) (ms : Nat)
  | deleteAsync (uri : String)
  | shareAsync (url : String)
  | alert (title : String) (message : String)
  | toastShow (p : ToastParams)
  deriving DecidableEq, Repr

/-- The answers of the host platform: the constants of `expo-file-system` and `Platform`,
and for each awaited host call either the resolved value or the message of the rejection. -/
structure Host where
  OS : PlatformOS
  documentDirectory : Option String
  cacheDirectory : Option String
  requestPermissionsAsync : Except String String
  downloadAsync : Option String → String → Except String String
  createAssetAsync : String → Except String Asset
  createAlbumAsync : String → Asset → Bool → Except String Unit
  shareAsync : String → Except String Unit

/-- The mutable state of a mounted screen: the `status` of `useState`, the log of the
actions performed so far, and the timers registered with `setTimeout` that are pending. -/
structure Screen where
  status : String
  log : List Event
  timers : List (Callback × Nat)
  deriving DecidableEq, Repr

/-- The state of a freshly mounted screen: `useState("loading")`. -/
def Screen.initial : Screen := ⟨"loading", [], []⟩

/-! ## Asynchronous code as state passing -/

/-- An `async` function body: it runs on the screen state and either returns a value or
throws; the state it leaves behind is kept in both cases. -/
def Task (α : Type) : Type := Screen → Except String α × Screen

/-- Return a value. -/
def Task.pure {α : Type} (a : α) : Task α := fun s => (.ok a, s)

/-- Sequencing: a throw of the first part skips the second. -/
def Task.bind {α β : Type} (m : Task α) (f : α → Task β) : Task β := fun s =>
  match m s with
  | (.ok a, s1) => f a s1
  | (.error e, s1) => (.error e, s1)

/-- The statement `try { body } catch (err) { handler(err.message) }`. -/
def Task.tryCatch {α : Type} (body : Task α) (handler : String → Task α) : Task α := fun s =>
  match body s with
  | (.ok a, s1) => (.ok a, s1)
  | (.error e, s1) => handler e s1

instance : Monad Task where
  pure := Task.pure
  bind := Task.bind

/-- Record an action in the log. -/
def emit (e : Event) : Task Unit := fun s => (.ok (), { s with log := s.log ++ [e] })

/-- Await a host call: record it, then resolve to its value or throw its rejection. -/
def await {α : Type} (e : Event) (answer : Except String α) : Task α := fun s =>
  (answer, { s with log := s.log ++ [e] })

/-- The state setter `setStatus` of `useState`. -/
def setStatus (v : String) : Task Unit := fun s =>
  (.ok (), { s with status := v, log := s.log ++ [Event.setStatus v] })

/-- The global `setTimeout(cb, ms)`: the callback is registered, not run. -/
def setTimeout (cb : Callback) (ms : Nat) : Task Unit := fun s =>
  (.ok (), { s with log := s.log ++ [Event.setTimeout cb ms], timers := s.timers ++ [(cb, ms)] })

/-- What the event loop does when a registered timer fires: it runs the callback. -/
def runCallback : Callback → Task Unit
  | .deleteAsync uri => emit (.deleteAsync uri)

/-! ## JavaScript numbers -/

/-- The integer nearest to `x`, the even one of the two when `x` lies halfway. -/
def roundHalfEven (x : ℚ) : ℤ :=
  let f := ⌊x⌋
  if x - f < 1 / 2 then f
  else if 1 / 2 < x - f then f + 1
  else if f % 2 = 0 then f else f + 1

/-- Round a non-negative rational to binary64, to nearest, ties to even: 53 significant
bits, least exponent `-1022` (below it the spacing stays `2 ^ (-1074)`, the subnormal
range), and `none` when the rounded value reaches `2 ^ 1024` (overflow). -/
def roundMagnitude (q : ℚ) : Option ℚ :=
  if q = 0 then some 0
  else
    let e := max (Int.log 2 q) (-1022)
    let ulp : ℚ := 2 ^ (e - 52)
    let r := roundHalfEven (q / ulp) * ulp
    if r < 2 ^ (1024 : ℤ) then some r else none

/-- The binary64 value of an exact result with the given sign and magnitude; an overflow
gives the infinity of that sign. -/
def F64.round (negative : Bool) (q : ℚ) : F64 :=
  match roundMagnitude q with
  | some r => .fin negative r
  | none => .inf negative

/-- The operator `/` on numbers. -/
def F64.div : F64 → F64 → F64
  | .nan, _ => .nan
  | _, .nan => .nan
  | .inf _, .inf _ => .nan
  | .inf s, .fin t _ => .inf (xor s t)
  | .fin s _, .inf t => .fin (xor s t) 0
  | .fin s x, .fin t y =>
    if y = 0 then (if x = 0 then .nan else .inf (xor s t)) else F64.round (xor s t) (x / y)

/-- The operator `*` on numbers. -/
def F64.mul : F64 → F64 → F64
  | .nan, _ => .nan
  | _, .nan => .nan
  | .inf s, .inf t => .inf (xor s t)
  | .inf s, .fin t y => if y = 0 then .nan else .inf (xor s t)
  | .fin s x, .inf t => if x = 0 then .nan else .inf (xor s t)
  | .fin s x, .fin t y => F64.round (xor s t) (x * y)

/-- The rational a sign and a magnitude stand for. -/
def F64.signed (negative : Bool) (q : ℚ) : ℚ := if negative then -q else q

/-- The operator `<` on numbers: false as soon as an operand is `NaN`. -/
def F64.lt : F64 → F64 → Bool
  | .nan, _ => false
  | _, .nan => false
  | .inf s, .inf t => s && !t
  | .inf s, .fin _ _ => s
  | .fin _ _, .inf t => !t
  | .fin s x, .fin t y => decide (F64.signed s x < F64.signed t y)

instance : Div F64 := ⟨F64.div⟩

instance : Mul F64 := ⟨F64.mul⟩

/-- The number a non-negative literal of the source denotes; the literals that occur (1,
2, 9, 14, 50, 92, 100, 400, 800, 1200) are binary64 values. -/
def F64.lit (q : ℚ) : F64 := .fin false q

/-! ## JavaScript value conventions -/

/-- Truthiness of a value that is a string or `null`: `null` and `""` are falsy. -/
def truthy : Option String → Bool
  | none => false
  | some s => s != ""

/-- How a template literal renders a string that may be `undefined`. -/
def renderUndefined : Option String → String
  | none => "undefined"
  | some s => s

/-- How a template literal renders a string that may be `null`. -/
def renderNull : Option String → String
  | none => "null"
  | some s => s

/-- The array `s.split("/")`, on the characters of `s`: the segments between the
separators, of which there is always at least one. -/
def split (sep : Char) : List Char → List (List Char)
  | [] => [[]]
  | c :: cs =>
    if c = sep then [] :: split sep cs
    else
      match split sep cs with
      | [] => [[c]]
      | seg :: rest => (c :: seg) :: rest

/-- The value of `arr.pop()`: the last element, `undefined` on an empty array. -/
def pop {α : Type} : List α → Option α
  | [] => none
  | [a] => some a
  | _ :: b :: l => pop (b :: l)

/-! ## The component -/

/-- The line `const fileName = item?.previewURL?.split("/").pop();`. -/
def fileName (item : Item) : Option String :=
  match item.previewURL with
  | none => none
  | some url => (pop (split '/' url.data)).map String.mk

/-- The line `const imageUrl = uri;` with `let uri = item?.webformatURL;`. -/
def imageUrl (item : Item) : Option String := item.webformatURL

/-- The line `const filePath = ${FileSystem.documentDirectory}${fileName};` (a template
literal). -/
def filePath (host : Host) (item : Item) : String :=
  renderNull host.documentDirectory ++ renderUndefined (fileName item)

/-- The style object `getSize` returns. -/
structure Size where
  width : F64
  height : F64
  deriving DecidableEq

/-- The function `getSize`.  The helper `wp` of `helpers/common` is a parameter. -/
def getSize (wp : F64 → F64) (OS : PlatformOS) (item : Item) : Size :=
  let aspectRatio := item.imageWidth / item.imageHeight
  let maxWidth := if OS = .web then wp (.lit 50) else wp (.lit 92)
  let calculatedHeight := maxWidth / aspectRatio
  let calculatedWidth := maxWidth
  let calculatedWidth :=
    if F64.lt aspectRatio (.lit 1) then calculatedHeight * aspectRatio else calculatedWidth
  { width := calculatedWidth, height := calculatedHeight }

/-- The viewport bound `getSize` starts from: `Platform.OS == "web" ? wp(50) : wp(92)`. -/
def maxWidth (wp : F64 → F64) (OS : PlatformOS) : F64 :=
  if OS = .web then wp (.lit 50) else wp (.lit 92)

/-- The function `onLoad`. -/
def onLoad : Task Unit := setStatus ""

/-- The function `showToast`. -/
def showToast (message : String) : Task Unit :=
  emit (.toastShow { type := "success", text1 := message, position := "bottom" })

/-- The constant `tempFilePath` of `downloadFile`:
`isTemporary ? ${FileSystem.cacheDirectory}${fileName} : filePath`. -/
def tempFilePath (host : Host) (item : Item) (isTemporary : Bool) : String :=
  if isTemporary then renderNull host.cacheDirectory ++ renderUndefined (fileName item)
  else filePath host item

/-- The function `downloadFile`; its default parameter `isTemporary = false` is written
out by the caller. -/
def downloadFile (host : Host) (item : Item) (isTemporary : Bool) : Task (Option String) :=
  Task.tryCatch
    (do
      let downloadedUri ← await (.downloadAsync (imageUrl item) (tempFilePath host item isTemporary))
        (host.downloadAsync (imageUrl item) (tempFilePath host item isTemporary))
      emit (.consoleLog "Downloaded at" downloadedUri)
      if !isTemporary && host.OS = .android then
        let asset ← await (.createAssetAsync downloadedUri) (host.createAssetAsync downloadedUri)
        await (.createAlbumAsync "Download" asset false)
          (host.createAlbumAsync "Download" asset false)
      if isTemporary then
        setTimeout (.deleteAsync downloadedUri) 10000
      setStatus ""
      pure (some downloadedUri))
    (fun message => do
      emit (.consoleLog "Got error:" message)
      setStatus ""
      emit (.alert "Image" message)
      pure none)

/-- The function `handleDownloadImage`. -/
def handleDownloadImage (host : Host) (item : Item) : Task Unit := do
  setStatus "downloading"
  let permission ← await .requestPermissionsAsync host.requestPermissionsAsync
  if permission ≠ "granted" then
    setStatus ""
    showToast "Permission denied. Unable to download the image."
  else
    let result ← downloadFile host item false
    if truthy result then
      showToast "Image downloaded"
    else
      setStatus ""

/-- The function `handleShareImage`.  The test `if (uri)` is the `match`: `null` is falsy,
and a string is tested with `truthy`. -/
def handleShareImage (host : Host) (item : Item) : Task Unit := do
  if host.OS = .web then
    showToast "Link copied"
  else
    setStatus "sharing"
    let uri ← downloadFile host item true
    match uri with
    | some uri =>
      if truthy (some uri) then
        await (.shareAsync uri) (host.shareAsync uri)
    | none => pure ()
    setStatus ""

/-! ## Observations on a log -/

/-- The values written to `status`, in order. -/
def statusWrites : List Event → List String
  | [] => []
  | .setStatus v :: l => v :: statusWrites l
  | _ :: l => statusWrites l

/-- The calls of `FileSystem.downloadAsync`, in order, with their arguments. -/
def downloadCalls : List Event → List (Option String × String)
  | [] => []
  | .downloadAsync url p :: l => (url, p) :: downloadCalls l
  | _ :: l => downloadCalls l

/-- The toasts shown, in order. -/
def toasts : List Event → List ToastParams
  | [] => []
  | .toastShow p :: l => p :: toasts l
  | _ :: l => toasts l

/-- The blocking alerts raised, in order: title and message. -/
def alerts : List Event → List (String × String)
  | [] => []
  | .alert t m :: l => (t, m) :: alerts l
  | _ :: l => alerts l

/-- The calls of `Sharing.shareAsync`, in order. -/
def shareCalls : List Event → List String
  | [] => []
  | .shareAsync u :: l => u :: shareCalls l
  | _ :: l => shareCalls l

/-- The calls of `MediaLibrary.createAssetAsync`, in order. -/
def assetCalls : List Event → List String
  | [] => []
  | .createAssetAsync u :: l => u :: assetCalls l
  | _ :: l => assetCalls l

/-- The calls of `MediaLibrary.createAlbumAsync`, in order. -/
def albumCalls : List Event → List (String × Asset × Bool)
  | [] => []
  | .createAlbumAsync n a c :: l => (n, a, c) :: albumCalls l
  | _ :: l => albumCalls l

/-- The timers registered with `setTimeout`, in order. -/
def timerCalls : List Event → List (Callback × Nat)
  | [] => []
  | .setTimeout cb ms :: l => (cb, ms) :: timerCalls l
  | _ :: l => timerCalls l

/-- The calls of `FileSystem.deleteAsync` actually performed, in order. -/
def deleteCalls : List Event → List String
  | [] => []
  | .deleteAsync u :: l => u :: deleteCalls l
  | _ :: l => deleteCalls l

/-- The value a run returns, or the message it throws. -/
def Task.result {α : Type} (t : Task α) (s : Screen) : Except String α := (t s).1

/-- The screen state a run leaves behind. -/
def Task.final {α : Type} (t : Task α) (s : Screen) : Screen := (t s).2

/-- The actions a run performs: what it appends to the log it started with. -/
def Task.trace {α : Type} (t : Task α) (s : Screen) : List Event :=
  (t s).2.log.drop s.log.length

/-! ## Sample hosts and requests -/

/-- An Android phone on which every host call resolves; the download service answers with
the URI of the file it wrote. -/
def androidHost : Host where
  OS := .android
  documentDirectory := some "file:///data/user/0/wallpaper/files/"
  cacheDirectory := some "file:///data/user/0/wallpaper/cache/"
  requestPermissionsAsync := .ok "granted"
  downloadAsync := fun _ fileUri => .ok fileUri
  createAssetAsync := fun localUri => .ok { id := "1", uri := localUri }
  createAlbumAsync := fun _ _ _ => .ok ()
  shareAsync := fun _ => .ok ()

/-- An iPhone on which every host call resolves. -/
def iosHost : Host := { androidHost with OS := .ios }

/-- A browser: `expo-file-system` has no directories there. -/
def webHost : Host :=
  { androidHost with OS := .web, documentDirectory := none, cacheDirectory := none }

/-- An Android phone whose user declines the media permission. -/
def deniedHost : Host := { androidHost with requestPermissionsAsync := .ok "denied" }

/-- An Android phone without network: the download rejects. -/
def offlineHost : Host :=
  { androidHost with downloadAsync := fun _ _ => .error "Network request failed" }

/-- An Android phone on which the share sheet rejects. -/
def noShareHost : Host :=
  { androidHost with shareAsync := fun _ => .error "Sharing is not available" }

/-- A landscape image, 1200 by 800. -/
def sampleItem : Item where
  webformatURL := some "https://x/img.jpg"
  previewURL := some "https://x/preview/abc.jpg"
  imageWidth := .lit 1200
  imageHeight := .lit 800

/-- A portrait image, 1 by 2. -/
def portraitItem : Item := { sampleItem with imageWidth := .lit 1, imageHeight := .lit 2 }

/-- A portrait image, 9 by 14. -/
def tallItem : Item := { sampleItem with imageWidth := .lit 9, imageHeight := .lit 14 }

/-- An image whose dimensions are positive doubles so far apart that their quotient
overflows: `2 ^ 1000` by `2 ^ (-1000)`. -/
def extremeItem : Item :=
  { sampleItem with imageWidth := .lit (2 ^ (1000 : ℤ)), imageHeight := .lit (2 ^ (-1000 : ℤ)) }

/-- A width helper in the manner of `wp`: the given percentage of a viewport 400 wide,
`(percentage * 400) / 100`. -/
def wp400 (percentage : F64) : F64 := percentage * .lit 400 / .lit 100

/-! ## Unfolding lemmas -/

attribute [simp] Task.pure Task.bind Task.tryCatch emit await setStatus setTimeout showToast
  Task.result Task.final Task.trace

@[simp] theorem bind_eq {α β : Type} (m : Task α) (f : α → Task β) :
    (m >>= f) = Task.bind m f := rfl

@[simp] theorem pure_eq {α : Type} (a : α) : (Pure.pure a : Task α) = Task.pure a := rfl

/-! ## What one run of `downloadFile` does, path by path -/

/-- The download rejects with `m`: the `catch` block logs, resets the status, raises the
alert and returns `null`. -/
theorem downloadFile_download_error (host : Host) (item : Item) (isTemporary : Bool)
    (s : Screen) (m : String)
    (hd : host.downloadAsync (imageUrl item) (tempFilePath host item isTemporary) = .error m) :
    downloadFile host item isTemporary s =
      (.ok none,
        { status := "",
          log := s.log ++ [.downloadAsync (imageUrl item) (tempFilePath host item isTemporary),
            .consoleLog "Got error:" m, .setStatus "", .alert "Image" m],
          timers := s.timers }) := by
  simp [downloadFile, hd]

/-- A temporary transfer whose download resolves to `u`. -/
theorem downloadFile_temporary_ok (host : Host) (item : Item) (s : Screen) (u : String)
    (hd : host.downloadAsync (imageUrl item) (tempFilePath host item true) = .ok u) :
    downloadFile host item true s =
      (.ok (some u),
        { status := "",
          log := s.log ++ [.downloadAsync (imageUrl item) (tempFilePath host item true),
            .consoleLog "Downloaded at" u, .setTimeout (.deleteAsync u) 10000, .setStatus ""],
          timers := s.timers ++ [(.deleteAsync u, 10000)] }) := by
  simp [downloadFile, hd]

/-- A permanent transfer off Android whose download resolves to `u`. -/
theorem downloadFile_permanent_ok_other (host : Host) (item : Item) (s : Screen) (u : String)
    (hos : host.OS ≠ .android)
    (hd : host.downloadAsync (imageUrl item) (tempFilePath host item false) = .ok u) :
    downloadFile host item false s =
      (.ok (some u),
        { status := "",
          log := s.log ++ [.downloadAsync (imageUrl item) (tempFilePath host item false),
            .consoleLog "Downloaded at" u, .setStatus ""],
          timers := s.timers }) := by
  simp [downloadFile, hd, hos]

/-- A permanent transfer on Android, every host call resolving. -/
theorem downloadFile_permanent_ok_android (host : Host) (item : Item) (s : Screen)
    (u : String) (a : Asset) (hos : host.OS = .android)
    (hd : host.downloadAsync (imageUrl item) (tempFilePath host item false) = .ok u)
    (ha : host.createAssetAsync u = .ok a)
    (hb : host.createAlbumAsync "Download" a false = .ok ()) :
    downloadFile host item false s =
      (.ok (some u),
        { status := "",
          log := s.log ++ [.downloadAsync (imageUrl item) (tempFilePath host item false),
            .consoleLog "Downloaded at" u, .createAssetAsync u,
            .createAlbumAsync "Download" a false, .setStatus ""],
          timers := s.timers }) := by
  simp [downloadFile, hd, hos, ha, hb]

/-- A permanent transfer on Android whose asset registration rejects with `m`. -/
theorem downloadFile_asset_error (host : Host) (item : Item) (s : Screen)
    (u m : String) (hos : host.OS = .android)
    (hd : host.downloadAsync (imageUrl item) (tempFilePath host item false) = .ok u)
    (ha : host.createAssetAsync u = .error m) :
    downloadFile host item false s =
      (.ok none,
        { status := "",
          log := s.log ++ [.downloadAsync (imageUrl item) (tempFilePath host item false),
            .consoleLog "Downloaded at" u, .createAssetAsync u,
            .consoleLog "Got error:" m, .setStatus "", .alert "Image" m],
          timers := s.timers }) := by
  simp [downloadFile, hd, hos, ha]

/-- A permanent transfer on Android whose album call rejects with `m`. -/
theorem downloadFile_album_error (host : Host) (item : Item) (s : Screen)
    (u m : String) (a : Asset) (hos : host.OS = .android)
    (hd : host.downloadAsync (imageUrl item) (tempFilePath host item false) = .ok u)
    (ha : host.createAssetAsync u = .ok a)
    (hb : host.createAlbumAsync "Download" a false = .error m) :
    downloadFile host item false s =
      (.ok none,
        { status := "",
          log := s.log ++ [.downloadAsync (imageUrl item) (tempFilePath host item false),
            .consoleLog "Downloaded at" u, .createAssetAsync u,
            .createAlbumAsync "Download" a false,
            .consoleLog "Got error:" m, .setStatus "", .alert "Image" m],
          timers := s.timers }) := by
  simp [downloadFile, hd, hos, ha, hb]

/-- Whatever the host answers, `downloadFile` returns (it never throws), leaves the status
empty, calls the download service once, and performs no deletion; a permanent transfer
registers no timer. -/
theorem downloadFile_total (host : Host) (item : Item) (isTemporary : Bool) (s : Screen) :
    ∃ r l t, downloadFile host item isTemporary s =
        (.ok r, { status := "", log := s.log ++ l, timers := t }) ∧
      downloadCalls l = [(imageUrl item, tempFilePath host item isTemporary)] ∧
      statusWrites l = [""] ∧ toasts l = [] ∧ shareCalls l = [] ∧ deleteCalls l = [] ∧
      (isTemporary = false → timerCalls l = [] ∧ t = s.timers) := by
  rcases hd : host.downloadAsync (imageUrl item) (tempFilePath host item isTemporary) with m | u
  · exact ⟨_, _, _, downloadFile_download_error host item isTemporary s m hd,
      by simp [downloadCalls, statusWrites, toasts, shareCalls, deleteCalls, timerCalls]⟩
  · cases isTemporary
    · by_cases hos : host.OS = .android
      · rcases ha : host.createAssetAsync u with m | a
        · exact ⟨_, _, _, downloadFile_asset_error host item s u m hos hd ha,
            by simp [downloadCalls, statusWrites, toasts, shareCalls, deleteCalls, timerCalls]⟩
        · rcases hb : host.createAlbumAsync "Download" a false with m | x
          · exact ⟨_, _, _, downloadFile_album_error host item s u m a hos hd ha hb,
              by simp [downloadCalls, statusWrites, toasts, shareCalls, deleteCalls, timerCalls]⟩
          · exact ⟨_, _, _, downloadFile_permanent_ok_android host item s u a hos hd ha hb,
              by simp [downloadCalls, statusWrites, toasts, shareCalls, deleteCalls, timerCalls]⟩
      · exact ⟨_, _, _, downloadFile_permanent_ok_other host item s u hos hd,
          by simp [downloadCalls, statusWrites, toasts, shareCalls, deleteCalls, timerCalls]⟩
    · exact ⟨_, _, _, downloadFile_temporary_ok host item s u hd,
        by simp [downloadCalls, statusWrites, toasts, shareCalls, deleteCalls, timerCalls]⟩

/-! ## The last segment of a path -/

theorem split_ne_nil (sep : Char) (l : List Char) : split sep l ≠ [] := by
  cases l with
  | nil => simp [split]
  | cons c cs =>
    by_cases h : c = sep
    · simp [split, h]
    · simp only [split, h, if_false]
      split <;> simp

theorem pop_cons {α : Type} (a : α) (l : List α) (h : l ≠ []) : pop (a :: l) = pop l := by
  cases l with
  | nil => exact absurd rfl h
  | cons b l => rfl

/-- A string without the separator is a single segment. -/
theorem split_of_not_mem (sep : Char) (l : List Char) (h : sep ∉ l) : split sep l = [l] := by
  induction l with
  | nil => rfl
  | cons c cs ih =>
    have hc : c ≠ sep := fun e => h (by simp [e])
    have hcs : sep ∉ cs := fun e => h (by simp [e])
    simp [split, hc, ih hcs]

/-- A string with a separator has at least two segments. -/
theorem two_le_length_split (sep : Char) (pre rest : List Char) :
    2 ≤ (split sep (pre ++ sep :: rest)).length := by
  induction pre with
  | nil =>
    have := split_ne_nil sep rest
    cases hs : split sep rest with
    | nil => exact absurd hs this
    | cons a l => simp [split, hs]
  | cons c cs ih =>
    by_cases h : c = sep
    · subst h
      have hs : split c (c :: (cs ++ c :: rest)) = [] :: split c (cs ++ c :: rest) := by
        simp [split]
      rw [List.cons_append, hs, List.length_cons]
      omega
    · simp only [List.cons_append, split, h, if_false]
      cases hs : split sep (cs ++ sep :: rest) with
      | nil => simp [hs] at ih
      | cons a l => simpa [hs] using ih

/-- The last segment of a string is the last segment of what follows any separator. -/
theorem pop_split_append (sep : Char) (pre rest : List Char) :
    pop (split sep (pre ++ sep :: rest)) = pop (split sep rest) := by
  induction pre with
  | nil => simp [split, pop_cons _ _ (split_ne_nil sep rest)]
  | cons c cs ih =>
    by_cases h : c = sep
    · subst h
      have hs : split c (c :: (cs ++ c :: rest)) = [] :: split c (cs ++ c :: rest) := by
        simp [split]
      rw [List.cons_append, hs, pop_cons _ _ (split_ne_nil _ _)]
      exact ih
    · have h2 := two_le_length_split sep cs rest
      simp only [List.cons_append, split, h, if_false]
      cases hs : split sep (cs ++ sep :: rest) with
      | nil => simp [hs] at h2
      | cons a l =>
        cases l with
        | nil => simp [hs] at h2
        | cons b l =>
          rw [← ih, hs]
          rfl

/-- The derived file name is the part of `previewURL` after its last `"/"`, or all of it
when it has none. -/
theorem fileName_eq (item : Item) (url pre name : String)
    (hurl : item.previewURL = some url)
    (hseg : url = pre ++ "/" ++ name ∨ url = name) (hname : '/' ∉ name.data) :
    fileName item = some name := by
  rcases hseg with h | h
  · subst h
    have hd : (pre ++ "/" ++ name).data = pre.data ++ '/' :: name.data := by
      simp [String.data_append]
    simp [fileName, hurl, hd, pop_split_append, split_of_not_mem _ _ hname, pop]
  · subst h
    simp [fileName, hurl, split_of_not_mem _ _ hname, pop]

/-! ## Rounding to binary64 -/

theorem roundHalfEven_floor_le (x : ℚ) : ⌊x⌋ ≤ roundHalfEven x := by
  unfold roundHalfEven
  dsimp only
  split_ifs <;> omega

theorem roundHalfEven_abs_sub_le (x : ℚ) : |(roundHalfEven x : ℚ) - x| ≤ 1 / 2 := by
  have h1 : (⌊x⌋ : ℚ) ≤ x := Int.floor_le x
  have h2 : x < ⌊x⌋ + 1 := Int.lt_floor_add_one x
  unfold roundHalfEven
  dsimp only
  rw [abs_le]
  split_ifs with ha hb hc
  · constructor <;> linarith
  · push_cast; constructor <;> linarith
  · constructor <;> linarith
  · push_cast; constructor <;> linarith

theorem roundHalfEven_eq (x : ℚ) (n : ℤ) (h : |x - n| < 1 / 2) : roundHalfEven x = n := by
  rw [abs_lt] at h
  have hf : ⌊x⌋ = n ∨ ⌊x⌋ = n - 1 := by
    have h1 : n - 1 ≤ ⌊x⌋ := Int.le_floor.mpr (by push_cast; linarith)
    have h2 : ⌊x⌋ < n + 1 := Int.floor_lt.mpr (by push_cast; linarith)
    omega
  have h1 : (⌊x⌋ : ℚ) ≤ x := Int.floor_le x
  unfold roundHalfEven
  dsimp only
  rcases hf with hf | hf
  · rw [hf, if_pos (by linarith)]
  · have hc : ((⌊x⌋ : ℤ) : ℚ) = n - 1 := by rw [hf]; push_cast; ring
    rw [if_neg (by rw [hc]; linarith), if_pos (by rw [hc]; linarith), hf]
    ring

theorem log_eq (q : ℚ) (e : ℤ) (hlo : (2 : ℚ) ^ e ≤ q) (hhi : q < (2 : ℚ) ^ (e + 1)) :
    Int.log 2 q = e := by
  have hq : 0 < q := lt_of_lt_of_le (zpow_pos (by norm_num) e) hlo
  have h1 : e ≤ Int.log 2 q := (Int.zpow_le_iff_le_log (by norm_num) hq).mp (by exact_mod_cast hlo)
  have h2 : Int.log 2 q < e + 1 := (Int.lt_zpow_iff_log_lt (by norm_num) hq).mp (by exact_mod_cast hhi)
  omega

/-- Rounding from a certificate: the binade `e` of `q` and the integer `n` nearest to
`q / 2 ^ (e - 52)`. -/
theorem roundMagnitude_eq (q r : ℚ) (e n : ℤ) (hlo : (2 : ℚ) ^ e ≤ q)
    (hhi : q < (2 : ℚ) ^ (e + 1)) (he : -1022 ≤ e)
    (hn1 : (n : ℚ) - 1 / 2 < q / (2 : ℚ) ^ (e - 52))
    (hn2 : q / (2 : ℚ) ^ (e - 52) < (n : ℚ) + 1 / 2)
    (hov : (n : ℚ) * (2 : ℚ) ^ (e - 52) < (2 : ℚ) ^ (1024 : ℤ))
    (hr : (n : ℚ) * (2 : ℚ) ^ (e - 52) = r) :
    roundMagnitude q = some r := by
  have hq : 0 < q := lt_of_lt_of_le (zpow_pos (by norm_num) e) hlo
  have hn : |q / (2 : ℚ) ^ (e - 52) - n| < 1 / 2 := by
    rw [abs_lt]; constructor <;> linarith
  unfold roundMagnitude
  rw [if_neg hq.ne.symm]
  dsimp only
  rw [log_eq q e hlo hhi, max_eq_left he, roundHalfEven_eq _ n hn, if_pos hov, hr]

theorem roundMagnitude_normal (q : ℚ) (hlo : (2 : ℚ) ^ (-1022 : ℤ) ≤ q)
    (hhi : q < (2 : ℚ) ^ (1023 : ℤ)) :
    ∃ r, roundMagnitude q = some r ∧ |r - q| ≤ (2 : ℚ) ^ (-53 : ℤ) * q ∧
      (1 ≤ q → 1 ≤ r) := by
  have hq : 0 < q := lt_of_lt_of_le (zpow_pos (by norm_num) _) hlo
  have he : -1022 ≤ Int.log 2 q :=
    (Int.zpow_le_iff_le_log (by norm_num) hq).mp (by exact_mod_cast hlo)
  have hle : (2 : ℚ) ^ Int.log 2 q ≤ q := by
    have := Int.zpow_log_le_self (b := 2) (by norm_num) hq
    exact_mod_cast this
  set e := Int.log 2 q with hedef
  have hulp : (0 : ℚ) < (2 : ℚ) ^ (e - 52) := zpow_pos (by norm_num) _
  have hsplit : (2 : ℚ) ^ (e - 52) = (2 : ℚ) ^ e * (2 : ℚ) ^ (-52 : ℤ) := by
    rw [sub_eq_add_neg, zpow_add₀ (by norm_num)]
  have herr := roundHalfEven_abs_sub_le (q / (2 : ℚ) ^ (e - 52))
  have hr : |(roundHalfEven (q / (2 : ℚ) ^ (e - 52)) : ℚ) * (2 : ℚ) ^ (e - 52) - q|
      ≤ (2 : ℚ) ^ (-53 : ℤ) * q := by
    have h1 : (roundHalfEven (q / (2 : ℚ) ^ (e - 52)) : ℚ) * (2 : ℚ) ^ (e - 52) - q
        = ((roundHalfEven (q / (2 : ℚ) ^ (e - 52)) : ℚ) - q / (2 : ℚ) ^ (e - 52))
          * (2 : ℚ) ^ (e - 52) := by
      field_simp
    rw [h1, abs_mul, abs_of_pos hulp]
    calc |(roundHalfEven (q / (2 : ℚ) ^ (e - 52)) : ℚ) - q / (2 : ℚ) ^ (e - 52)|
          * (2 : ℚ) ^ (e - 52)
        ≤ 1 / 2 * (2 : ℚ) ^ (e - 52) := mul_le_mul_of_nonneg_right herr hulp.le
      _ = (2 : ℚ) ^ (-53 : ℤ) * (2 : ℚ) ^ e := by rw [hsplit]; norm_num; ring
      _ ≤ (2 : ℚ) ^ (-53 : ℤ) * q := mul_le_mul_of_nonneg_left hle (by positivity)
  have hov : (roundHalfEven (q / (2 : ℚ) ^ (e - 52)) : ℚ) * (2 : ℚ) ^ (e - 52)
      < (2 : ℚ) ^ (1024 : ℤ) := by
    have h2 := (abs_le.mp hr).2
    have h3 : (2 : ℚ) ^ (-53 : ℤ) * q ≤ q := by
      have : (2 : ℚ) ^ (-53 : ℤ) ≤ 1 := by norm_num
      nlinarith
    have h4 : (2 : ℚ) ^ (1024 : ℤ) = 2 * (2 : ℚ) ^ (1023 : ℤ) := by
      rw [show (1024 : ℤ) = 1 + 1023 by norm_num, zpow_add₀ (by norm_num)]; norm_num
    rw [h4]
    linarith
  refine ⟨roundHalfEven (q / (2 : ℚ) ^ (e - 52)) * (2 : ℚ) ^ (e - 52), ?_, hr, ?_⟩
  · unfold roundMagnitude
    rw [if_neg hq.ne.symm]
    dsimp only
    rw [← hedef, max_eq_left he, if_pos hov]
  · intro h1
    have he0 : 0 ≤ e := (Int.zpow_le_iff_le_log (by norm_num) hq).mp (by simpa using h1)
    have hx : ((2 ^ 52 : ℤ) : ℚ) ≤ q / (2 : ℚ) ^ (e - 52) := by
      rw [le_div_iff₀ hulp, hsplit]
      have : ((2 ^ 52 : ℤ) : ℚ) * ((2 : ℚ) ^ e * (2 : ℚ) ^ (-52 : ℤ)) = (2 : ℚ) ^ e := by
        norm_num; ring
      rw [this]
      exact hle
    have hn : (2 ^ 52 : ℤ) ≤ roundHalfEven (q / (2 : ℚ) ^ (e - 52)) :=
      le_trans (Int.le_floor.mpr hx) (roundHalfEven_floor_le _)
    have hn' : ((2 ^ 52 : ℤ) : ℚ) ≤ (roundHalfEven (q / (2 : ℚ) ^ (e - 52)) : ℚ) := by
      exact_mod_cast hn
    have h2e : (1 : ℚ) ≤ (2 : ℚ) ^ e := one_le_zpow₀ (by norm_num) he0
    calc (1 : ℚ) ≤ (2 : ℚ) ^ e := h2e
      _ = ((2 ^ 52 : ℤ) : ℚ) * (2 : ℚ) ^ (e - 52) := by rw [hsplit]; norm_num; ring
      _ ≤ _ := mul_le_mul_of_nonneg_right hn' hulp.le


theorem ratio_landscape (q a t H u : ℚ) (hq : 0 < q) (ht : 0 < t) (hu0 : 0 ≤ u)
    (hu : u ≤ 1 / 8) (ha : |a - q| ≤ u * q) (hH : |H - t| ≤ u * t) :
    |t * a / H - q| ≤ 4 * u * q := by
  rw [abs_le] at ha hH ⊢
  have hHpos : 0 < H := by nlinarith
  have hapos : 0 < a := by nlinarith
  have huq : 0 ≤ u * q := mul_nonneg hu0 hq.le
  have hut : 0 ≤ u * t := mul_nonneg hu0 ht.le
  constructor
  · rw [le_sub_iff_add_le, le_div_iff₀ hHpos]
    -- (-(4uq) + q) * H ≤ t * a
    have h1 : (-(4 * u * q) + q) * H ≤ (-(4 * u * q) + q) * (t + u * t) :=
      mul_le_mul_of_nonneg_left (by linarith) (by nlinarith)
    have h2 : t * (q - u * q) ≤ t * a := mul_le_mul_of_nonneg_left (by linarith) ht.le
    have h3 : (-(4 * u * q) + q) * (t + u * t) ≤ t * (q - u * q) := by
      have : 0 ≤ q * t * u * (2 + 4 * u) := by positivity
      nlinarith
    linarith
  · rw [sub_le_iff_le_add, div_le_iff₀ hHpos]
    have h1 : (4 * u * q + q) * (t - u * t) ≤ (4 * u * q + q) * H :=
      mul_le_mul_of_nonneg_left (by linarith) (by nlinarith)
    have h2 : t * a ≤ t * (q + u * q) := mul_le_mul_of_nonneg_left (by linarith) ht.le
    have h3 : t * (q + u * q) ≤ (4 * u * q + q) * (t - u * t) := by
      have : 0 ≤ q * t * u * (2 - 4 * u) := by
        have : 0 ≤ 2 - 4 * u := by linarith
        positivity
      nlinarith
    linarith

theorem ratio_portrait (q a H W u : ℚ) (hq : 0 < q) (hH : 0 < H) (hu0 : 0 ≤ u)
    (hu : u ≤ 1 / 8) (ha : |a - q| ≤ u * q) (hW : |W - H * a| ≤ u * (H * a)) :
    |W / H - q| ≤ 4 * u * q := by
  rw [abs_le] at ha hW ⊢
  have hapos : 0 < a := by nlinarith
  have huq : 0 ≤ u * q := mul_nonneg hu0 hq.le
  constructor
  · rw [le_sub_iff_add_le, le_div_iff₀ hH]
    have h1 : H * a - u * (H * a) ≤ W := by linarith
    have h2 : H * ((q - u * q) * (1 - u)) ≤ H * (a * (1 - u)) :=
      mul_le_mul_of_nonneg_left (mul_le_mul_of_nonneg_right (by linarith) (by linarith)) hH.le
    have h3 : (-(4 * u * q) + q) ≤ (q - u * q) * (1 - u) := by
      have : 0 ≤ q * u * (2 + u) := by positivity
      nlinarith
    have h4 := mul_le_mul_of_nonneg_right h3 hH.le
    nlinarith
  · rw [sub_le_iff_le_add, div_le_iff₀ hH]
    have h1 : W ≤ H * a + u * (H * a) := by linarith
    have h2 : H * (a * (1 + u)) ≤ H * ((q + u * q) * (1 + u)) :=
      mul_le_mul_of_nonneg_left (mul_le_mul_of_nonneg_right (by linarith) (by linarith)) hH.le
    have h3 : (q + u * q) * (1 + u) ≤ 4 * u * q + q := by
      have : 0 ≤ q * u * (2 - u) := by
        have : 0 ≤ 2 - u := by linarith
        positivity
      nlinarith
    have h4 := mul_le_mul_of_nonneg_right h3 hH.le
    nlinarith

/-- An exact result of `2 ^ 1024` or more overflows. -/
theorem roundMagnitude_overflow (q : ℚ) (h : (2 : ℚ) ^ (1024 : ℤ) ≤ q) :
    roundMagnitude q = none := by
  have hq : 0 < q := lt_of_lt_of_le (zpow_pos (by norm_num) _) h
  have he : (1024 : ℤ) ≤ Int.log 2 q :=
    (Int.zpow_le_iff_le_log (by norm_num) hq).mp (by exact_mod_cast h)
  have hle : (2 : ℚ) ^ Int.log 2 q ≤ q := by
    have := Int.zpow_log_le_self (b := 2) (by norm_num) hq
    exact_mod_cast this
  set e := Int.log 2 q with hedef
  have hulp : (0 : ℚ) < (2 : ℚ) ^ (e - 52) := zpow_pos (by norm_num) _
  have hsplit : (2 : ℚ) ^ (e - 52) = (2 : ℚ) ^ e * (2 : ℚ) ^ (-52 : ℤ) := by
    rw [sub_eq_add_neg, zpow_add₀ (by norm_num)]
  have hx : ((2 ^ 52 : ℤ) : ℚ) ≤ q / (2 : ℚ) ^ (e - 52) := by
    rw [le_div_iff₀ hulp, hsplit]
    have : ((2 ^ 52 : ℤ) : ℚ) * ((2 : ℚ) ^ e * (2 : ℚ) ^ (-52 : ℤ)) = (2 : ℚ) ^ e := by
      norm_num; ring
    rw [this]
    exact hle
  have hn : (2 ^ 52 : ℤ) ≤ roundHalfEven (q / (2 : ℚ) ^ (e - 52)) :=
    le_trans (Int.le_floor.mpr hx) (roundHalfEven_floor_le _)
  have hn' : ((2 ^ 52 : ℤ) : ℚ) ≤ (roundHalfEven (q / (2 : ℚ) ^ (e - 52)) : ℚ) := by
    exact_mod_cast hn
  have hbig : (2 : ℚ) ^ (1024 : ℤ)
      ≤ (roundHalfEven (q / (2 : ℚ) ^ (e - 52)) : ℚ) * (2 : ℚ) ^ (e - 52) :=
    calc (2 : ℚ) ^ (1024 : ℤ) ≤ (2 : ℚ) ^ e := zpow_le_zpow_right₀ (by norm_num) he
      _ = ((2 ^ 52 : ℤ) : ℚ) * (2 : ℚ) ^ (e - 52) := by rw [hsplit]; norm_num; ring
      _ ≤ _ := mul_le_mul_of_nonneg_right hn' hulp.le
  unfold roundMagnitude
  rw [if_neg hq.ne.symm]
  dsimp only
  rw [← hedef, max_eq_left (by omega), if_neg (not_lt.mpr hbig)]

/-! ## The display size -/

theorem F64.div_fin (x y r : ℚ) (hy : y ≠ 0) (h : roundMagnitude (x / y) = some r) :
    F64.fin false x / F64.fin false y = F64.fin false r := by
  show F64.div (F64.fin false x) (F64.fin false y) = F64.fin false r
  simp [F64.div, F64.round, hy, h]

theorem F64.div_fin_overflow (x y : ℚ) (hy : y ≠ 0) (h : roundMagnitude (x / y) = none) :
    F64.fin false x / F64.fin false y = F64.inf false := by
  show F64.div (F64.fin false x) (F64.fin false y) = F64.inf false
  simp [F64.div, F64.round, hy, h]

theorem F64.div_fin_inf (x : ℚ) : F64.fin false x / F64.inf false = F64.fin false 0 := rfl

theorem F64.mul_fin (x y r : ℚ) (h : roundMagnitude (x * y) = some r) :
    F64.fin false x * F64.fin false y = F64.fin false r := by
  show F64.mul (F64.fin false x) (F64.fin false y) = F64.fin false r
  simp [F64.mul, F64.round, h]

theorem F64.lt_fin_one (a : ℚ) : F64.lt (F64.fin false a) (.lit 1) = decide (a < 1) := by
  simp [F64.lt, F64.signed, F64.lit]

/-- How `getSize` reads once its `let`s are unfolded. -/
theorem getSize_eq (wp : F64 → F64) (OS : PlatformOS) (item : Item) :
    getSize wp OS item =
      { width :=
          if F64.lt (item.imageWidth / item.imageHeight) (.lit 1) then
            maxWidth wp OS / (item.imageWidth / item.imageHeight)
              * (item.imageWidth / item.imageHeight)
          else maxWidth wp OS,
        height := maxWidth wp OS / (item.imageWidth / item.imageHeight) } := rfl

/-- On a viewport 400 wide, `wp(92)` is 368. -/
theorem wp400_92 : wp400 (.lit 92) = F64.fin false 368 := by
  have h1 : F64.fin false 92 * F64.fin false 400 = F64.fin false 36800 :=
    F64.mul_fin 92 400 36800
      (roundMagnitude_eq _ _ 15 5057753487769600 (by norm_num) (by norm_num) (by norm_num)
        (by norm_num) (by norm_num) (by norm_num) (by norm_num))
  have h2 : F64.fin false 36800 / F64.fin false 100 = F64.fin false 368 :=
    F64.div_fin 36800 100 368 (by norm_num)
      (roundMagnitude_eq _ _ 8 6473924464345088 (by norm_num) (by norm_num) (by norm_num)
        (by norm_num) (by norm_num) (by norm_num) (by norm_num))
  show F64.fin false 92 * F64.fin false 400 / F64.fin false 100 = F64.fin false 368
  rw [h1, h2]

/-- On Android the bound of the 400-wide viewport is 368. -/
theorem maxWidth_wp400_android : maxWidth wp400 .android = F64.fin false 368 := by
  simp [maxWidth, wp400_92]

/-- The portrait branch, from the three roundings it performs. -/
theorem getSize_portrait (wp : F64 → F64) (OS : PlatformOS) (item : Item)
    (w h M a H W : ℚ) (hw : item.imageWidth = F64.fin false w)
    (hh : item.imageHeight = F64.fin false h) (hm : maxWidth wp OS = F64.fin false M)
    (hh0 : h ≠ 0) (ha : roundMagnitude (w / h) = some a) (ha0 : a ≠ 0)
    (hH : roundMagnitude (M / a) = some H) (hlt : a < 1)
    (hW : roundMagnitude (H * a) = some W) :
    getSize wp OS item = { width := F64.fin false W, height := F64.fin false H } := by
  rw [getSize_eq, hw, hh, hm, F64.div_fin w h a hh0 ha, F64.div_fin M a H ha0 hH,
    F64.lt_fin_one, F64.mul_fin H a W hW]
  simp [hlt]

/-- The landscape branch, from the two roundings it performs. -/
theorem getSize_landscape (wp : F64 → F64) (OS : PlatformOS) (item : Item)
    (w h M a H : ℚ) (hw : item.imageWidth = F64.fin false w)
    (hh : item.imageHeight = F64.fin false h) (hm : maxWidth wp OS = F64.fin false M)
    (hh0 : h ≠ 0) (ha : roundMagnitude (w / h) = some a) (ha0 : a ≠ 0)
    (hH : roundMagnitude (M / a) = some H) (hge : ¬ a < 1) :
    getSize wp OS item = { width := F64.fin false M, height := F64.fin false H } := by
  rw [getSize_eq, hw, hh, hm, F64.div_fin w h a hh0 ha, F64.div_fin M a H ha0 hH,
    F64.lt_fin_one]
  simp [hge]

/-- A value within the relative error `u ≤ 1 / 2` of `q` lies between `q / 2` and `2 q`. -/
theorem half_le_of_rel_err (x q u : ℚ) (hq : 0 ≤ q) (hu : u ≤ 1 / 2)
    (h : |x - q| ≤ u * q) : q / 2 ≤ x ∧ x ≤ q * 2 := by
  have h1 : u * q ≤ 1 / 2 * q := mul_le_mul_of_nonneg_right hu hq
  rw [abs_le] at h
  constructor <;> linarith [h.1, h.2]

theorem half_le_of_le (c q x : ℚ) (hq : c ≤ q) (hx : q / 2 ≤ x) : c / 2 ≤ x := by
  linarith

theorem le_double_of_le (c q x : ℚ) (hq : q ≤ c) (hx : x ≤ q * 2) : x ≤ c * 2 := by
  linarith

/-- C5, amended: in binary64 arithmetic, for image dimensions `w`, `h` and a viewport
bound `M` between `2 ^ (-300)` and `2 ^ 300`, `getSize` returns a finite positive width `W`
and height `H`; for a landscape or square image (`h ≤ w`) the width is the bound itself,
so at most the bound; and in both branches the ratio `W / H` of the returned numbers is
within the relative tolerance `2 ^ (-51)` of `w / h`. -/
theorem getSize_landscape_width_and_aspect (wp : F64 → F64) (OS : PlatformOS) (item : Item)
    (w h M : ℚ) (hw : item.imageWidth = F64.fin false w)
    (hh : item.imageHeight = F64.fin false h) (hm : maxWidth wp OS = F64.fin false M)
    (hwlo : (2 : ℚ) ^ (-300 : ℤ) ≤ w) (hwhi : w ≤ (2 : ℚ) ^ (300 : ℤ))
    (hhlo : (2 : ℚ) ^ (-300 : ℤ) ≤ h) (hhhi : h ≤ (2 : ℚ) ^ (300 : ℤ))
    (hMlo : (2 : ℚ) ^ (-300 : ℤ) ≤ M) (hMhi : M ≤ (2 : ℚ) ^ (300 : ℤ)) :
    ∃ W H : ℚ,
      getSize wp OS item = { width := F64.fin false W, height := F64.fin false H } ∧
      0 < W ∧ 0 < H ∧ (h ≤ w → W = M) ∧
      |W / H - w / h| ≤ (2 : ℚ) ^ (-51 : ℤ) * (w / h) := by
  have hlo0 : (0 : ℚ) < (2 : ℚ) ^ (-300 : ℤ) := by positivity
  have hw0 : 0 < w := lt_of_lt_of_le hlo0 hwlo
  have hh0 : 0 < h := lt_of_lt_of_le hlo0 hhlo
  have hM0 : 0 < M := lt_of_lt_of_le hlo0 hMlo
  have hu : (2 : ℚ) ^ (-53 : ℤ) ≤ 1 / 8 := by norm_num
  have hu0 : (0 : ℚ) ≤ (2 : ℚ) ^ (-53 : ℤ) := by positivity
  have h4u : 4 * (2 : ℚ) ^ (-53 : ℤ) = (2 : ℚ) ^ (-51 : ℤ) := by norm_num
  -- the aspect ratio
  have hq0 : 0 < w / h := div_pos hw0 hh0
  have hqlo : (2 : ℚ) ^ (-600 : ℤ) ≤ w / h := by
    have h1 : (2 : ℚ) ^ (-300 : ℤ) / (2 : ℚ) ^ (300 : ℤ) ≤ w / h :=
      div_le_div₀ hw0.le hwlo hh0 hhhi
    have h2 : (2 : ℚ) ^ (-300 : ℤ) / (2 : ℚ) ^ (300 : ℤ) = (2 : ℚ) ^ (-600 : ℤ) := by norm_num
    linarith
  have hqhi : w / h ≤ (2 : ℚ) ^ (600 : ℤ) := by
    have h1 : w / h ≤ (2 : ℚ) ^ (300 : ℤ) / (2 : ℚ) ^ (-300 : ℤ) :=
      div_le_div₀ (by positivity) hwhi hlo0 hhlo
    have h2 : (2 : ℚ) ^ (300 : ℤ) / (2 : ℚ) ^ (-300 : ℤ) = (2 : ℚ) ^ (600 : ℤ) := by norm_num
    linarith
  obtain ⟨a, ha, haerr, ha1⟩ := roundMagnitude_normal (w / h)
    (le_trans (by norm_num) hqlo) (lt_of_le_of_lt hqhi (by norm_num))
  have hu2 : (2 : ℚ) ^ (-53 : ℤ) ≤ 1 / 2 := by norm_num
  have hab := half_le_of_rel_err a (w / h) _ hq0.le hu2 haerr
  have halo : (2 : ℚ) ^ (-601 : ℤ) ≤ a := by
    have h1 : (2 : ℚ) ^ (-601 : ℤ) = (2 : ℚ) ^ (-600 : ℤ) / 2 := by norm_num
    rw [h1]
    exact half_le_of_le _ _ _ hqlo hab.1
  have hahi : a ≤ (2 : ℚ) ^ (601 : ℤ) := by
    have h1 : (2 : ℚ) ^ (601 : ℤ) = (2 : ℚ) ^ (600 : ℤ) * 2 := by norm_num
    rw [h1]
    exact le_double_of_le _ _ _ hqhi hab.2
  have ha0 : 0 < a := lt_of_lt_of_le (by positivity) halo
  -- the height
  have ht0 : 0 < M / a := div_pos hM0 ha0
  have htlo : (2 : ℚ) ^ (-901 : ℤ) ≤ M / a := by
    have h1 : (2 : ℚ) ^ (-300 : ℤ) / (2 : ℚ) ^ (601 : ℤ) ≤ M / a :=
      div_le_div₀ hM0.le hMlo ha0 hahi
    have h2 : (2 : ℚ) ^ (-300 : ℤ) / (2 : ℚ) ^ (601 : ℤ) = (2 : ℚ) ^ (-901 : ℤ) := by norm_num
    linarith
  have hthi : M / a ≤ (2 : ℚ) ^ (901 : ℤ) := by
    have h1 : M / a ≤ (2 : ℚ) ^ (300 : ℤ) / (2 : ℚ) ^ (-601 : ℤ) :=
      div_le_div₀ (by positivity) hMhi (by positivity) halo
    have h2 : (2 : ℚ) ^ (300 : ℤ) / (2 : ℚ) ^ (-601 : ℤ) = (2 : ℚ) ^ (901 : ℤ) := by norm_num
    linarith
  obtain ⟨H, hH, hHerr, -⟩ := roundMagnitude_normal (M / a)
    (le_trans (by norm_num) htlo) (lt_of_le_of_lt hthi (by norm_num))
  have hHb := half_le_of_rel_err H (M / a) _ ht0.le hu2 hHerr
  have hH0 : 0 < H := by linarith [hHb.1]
  have hta : M / a * a = M := div_mul_cancel₀ M ha0.ne.symm
  by_cases hlt : a < 1
  · -- the portrait branch: the width is recomputed from the height
    have hHa0 : 0 < H * a := mul_pos hH0 ha0
    have hHalo : (2 : ℚ) ^ (-301 : ℤ) ≤ H * a := by
      have h1 : (2 : ℚ) ^ (-301 : ℤ) = (2 : ℚ) ^ (-300 : ℤ) / 2 := by norm_num
      have h2 : M / a / 2 * a ≤ H * a := mul_le_mul_of_nonneg_right hHb.1 ha0.le
      have h3 : M / a / 2 * a = M / 2 := by rw [div_mul_eq_mul_div, hta]
      rw [h1]
      exact half_le_of_le _ _ _ hMlo (by rw [← h3]; exact h2)
    have hHahi : H * a ≤ (2 : ℚ) ^ (301 : ℤ) := by
      have h1 : (2 : ℚ) ^ (301 : ℤ) = (2 : ℚ) ^ (300 : ℤ) * 2 := by norm_num
      have h2 : H * a ≤ M / a * 2 * a := mul_le_mul_of_nonneg_right hHb.2 ha0.le
      have h3 : M / a * 2 * a = M * 2 := by rw [mul_right_comm, hta]
      rw [h1]
      exact le_double_of_le _ _ _ hMhi (by rw [← h3]; exact h2)
    obtain ⟨W, hW, hWerr, -⟩ := roundMagnitude_normal (H * a)
      (le_trans (by norm_num) hHalo) (lt_of_le_of_lt hHahi (by norm_num))
    have hWb := half_le_of_rel_err W (H * a) _ hHa0.le hu2 hWerr
    have hW0 : 0 < W := by linarith [hWb.1]
    refine ⟨W, H, getSize_portrait wp OS item w h M a H W hw hh hm hh0.ne.symm ha
      ha0.ne.symm hH hlt hW, hW0, hH0, ?_, ?_⟩
    · intro hle
      have h1 : 1 ≤ w / h := (one_le_div hh0).mpr hle
      exact absurd (ha1 h1) (not_le.mpr hlt)
    · rw [← h4u]
      exact ratio_portrait (w / h) a H W _ hq0 hH0 hu0 hu haerr hWerr
  · -- the landscape branch: the width is the bound
    refine ⟨M, H, getSize_landscape wp OS item w h M a H hw hh hm hh0.ne.symm ha
      ha0.ne.symm hH hlt, hM0, hH0, fun _ => rfl, ?_⟩
    rw [← h4u]
    have := ratio_landscape (w / h) a (M / a) H _ hq0 ht0 hu0 hu haerr hHerr
    rwa [hta] at this

/-- Witness for C5 (amended): the landscape sample image, 1200 by 800, on a 400-wide
Android viewport. -/
theorem getSize_landscape_width_and_aspect_witness :
    ∃ W H : ℚ,
      getSize wp400 .android sampleItem
        = { width := F64.fin false W, height := F64.fin false H } ∧
      0 < W ∧ 0 < H ∧ ((800 : ℚ) ≤ 1200 → W = 368) ∧
      |W / H - 1200 / 800| ≤ (2 : ℚ) ^ (-51 : ℤ) * (1200 / 800) :=
  getSize_landscape_width_and_aspect wp400 .android sampleItem 1200 800 368
    rfl rfl
    maxWidth_wp400_android
    (by norm_num) (by norm_num) (by norm_num) (by norm_num) (by norm_num) (by norm_num)

/-- Far outside the range of the next theorem the aspect ratio is lost: for the image
`2 ^ 1000` by `2 ^ (-1000)` the quotient overflows to `Infinity`, so the height is `0`. -/
theorem getSize_extreme :
    getSize wp400 .android extremeItem
      = { width := F64.fin false 368, height := F64.fin false 0 } := by
  have hw : extremeItem.imageWidth = F64.fin false (2 ^ (1000 : ℤ)) := rfl
  have hh : extremeItem.imageHeight = F64.fin false (2 ^ (-1000 : ℤ)) := rfl
  have hov : roundMagnitude ((2 : ℚ) ^ (1000 : ℤ) / (2 : ℚ) ^ (-1000 : ℤ)) = none :=
    roundMagnitude_overflow _
      (by rw [← zpow_sub₀ (by norm_num : (2 : ℚ) ≠ 0)]
          exact zpow_le_zpow_right₀ (by norm_num) (by norm_num))
  rw [getSize_eq, hw, hh, maxWidth_wp400_android,
    F64.div_fin_overflow _ _ (by positivity) hov]
  simp [F64.lt, F64.lit, F64.div_fin_inf]

/-- C5, as stated, fails on the code, which computes in binary64: for the 9 by 14 image
on a 400-wide Android viewport the bound is 368 and `getSize` returns the width
6473924464345089 / 17592186044416 (368.00000000000006), which exceeds the bound, with the
height 5035274583379513 / 8796093022208; their ratio is not 9 / 14 either. -/
theorem getSize_tall_width_exceeds :
    tallItem.imageWidth = F64.fin false 9 ∧ tallItem.imageHeight = F64.fin false 14 ∧
      maxWidth wp400 .android = F64.fin false 368 ∧
      getSize wp400 .android tallItem =
        { width := F64.fin false (6473924464345089 / 17592186044416),
          height := F64.fin false (5035274583379513 / 8796093022208) } ∧
      F64.lt (maxWidth wp400 .android) (getSize wp400 .android tallItem).width = true ∧
      (6473924464345089 / 17592186044416 : ℚ) / (5035274583379513 / 8796093022208)
        ≠ 9 / 14 := by
  have hw : tallItem.imageWidth = F64.fin false 9 := rfl
  have hh : tallItem.imageHeight = F64.fin false 14 := rfl
  have hsize := getSize_portrait wp400 .android tallItem 9 14 368
    (5790342378047781 / 9007199254740992) (5035274583379513 / 8796093022208)
    (6473924464345089 / 17592186044416) hw hh maxWidth_wp400_android (by norm_num)
    (roundMagnitude_eq _ _ (-1) 5790342378047781 (by norm_num) (by norm_num) (by norm_num)
      (by norm_num) (by norm_num) (by norm_num) (by norm_num))
    (by norm_num)
    (roundMagnitude_eq _ _ 9 5035274583379513 (by norm_num) (by norm_num) (by norm_num)
      (by norm_num) (by norm_num) (by norm_num) (by norm_num))
    (by norm_num)
    (roundMagnitude_eq _ _ 8 6473924464345089 (by norm_num) (by norm_num) (by norm_num)
      (by norm_num) (by norm_num) (by norm_num) (by norm_num))
  refine ⟨hw, hh, maxWidth_wp400_android, hsize, ?_, by norm_num⟩
  rw [hsize, maxWidth_wp400_android]
  simp [F64.lt, F64.signed]
  norm_num

/-- C6: evaluation of `getSize` at the failing input.  For the portrait image 1 by 2
(aspect ratio 0.5) on a 400-wide Android viewport the bound is 368; the portrait branch
recomputes the width as `(368 / 0.5) * 0.5`, which is 368 again, so the returned width is
not less than the bound. -/
theorem getSize_portrait_width_not_lt :
    portraitItem.imageWidth = F64.fin false 1 ∧ portraitItem.imageHeight = F64.fin false 2 ∧
      maxWidth wp400 .android = F64.fin false 368 ∧
      getSize wp400 .android portraitItem =
        { width := F64.fin false 368, height := F64.fin false 736 } ∧
      F64.lt (getSize wp400 .android portraitItem).width (maxWidth wp400 .android) = false := by
  have hw : portraitItem.imageWidth = F64.fin false 1 := rfl
  have hh : portraitItem.imageHeight = F64.fin false 2 := rfl
  have hsize := getSize_portrait wp400 .android portraitItem 1 2 368 (1 / 2) 736 368
    hw hh maxWidth_wp400_android (by norm_num)
    (roundMagnitude_eq _ _ (-1) 4503599627370496 (by norm_num) (by norm_num) (by norm_num)
      (by norm_num) (by norm_num) (by norm_num) (by norm_num))
    (by norm_num)
    (roundMagnitude_eq _ _ 9 6473924464345088 (by norm_num) (by norm_num) (by norm_num)
      (by norm_num) (by norm_num) (by norm_num) (by norm_num))
    (by norm_num)
    (roundMagnitude_eq _ _ 8 6473924464345088 (by norm_num) (by norm_num) (by norm_num)
      (by norm_num) (by norm_num) (by norm_num) (by norm_num))
  refine ⟨hw, hh, maxWidth_wp400_android, hsize, ?_⟩
  rw [hsize, maxWidth_wp400_android]
  simp [F64.lt, F64.signed]

/-! ## The download flow -/

/-- C1: whenever the permission request returns a status (granted or anything else), and
whatever the download service and the media library answer (success, a failed download, a
failed asset or album registration), `handleDownloadImage` returns and the status it leaves
behind is `""` (idle). -/
theorem handleDownloadImage_ends_idle (host : Host) (item : Item) (s : Screen)
    (permission : String) (hperm : host.requestPermissionsAsync = .ok permission) :
    (handleDownloadImage host item).result s = .ok () ∧
      ((handleDownloadImage host item).final s).status = "" := by
  by_cases hg : permission = "granted"
  · obtain ⟨r, l, t, h, -⟩ := downloadFile_total host item false
      { status := "downloading",
        log := s.log ++ [.setStatus "downloading", .requestPermissionsAsync],
        timers := s.timers }
    cases htr : truthy r <;> simp [handleDownloadImage, hperm, hg, h, htr]
  · simp [handleDownloadImage, hperm, hg]

/-- Witness for C1: a granted download on the sample Android phone. -/
theorem handleDownloadImage_ends_idle_witness :
    androidHost.requestPermissionsAsync = .ok "granted" ∧
      (handleDownloadImage androidHost sampleItem).result Screen.initial = .ok () ∧
      ((handleDownloadImage androidHost sampleItem).final Screen.initial).status = "" :=
  ⟨rfl, handleDownloadImage_ends_idle androidHost sampleItem Screen.initial "granted" rfl⟩

/-- C2: when the permission request returns a status other than `"granted"`,
`handleDownloadImage` performs exactly: write status `"downloading"`, request the
permission, write status `""`, show one toast with the text
`"Permission denied. Unable to download the image."`.  So the download service is never
called, the status writes are `downloading` then idle, there is exactly one denial
notification, and no toast carries the success text `"Image downloaded"` (every toast of
this screen is shown through `showToast`, so the two differ by their text). -/
theorem handleDownloadImage_permission_denied (host : Host) (item : Item) (s : Screen)
    (permission : String) (hperm : host.requestPermissionsAsync = .ok permission)
    (hdenied : permission ≠ "granted") :
    (handleDownloadImage host item).trace s =
        [.setStatus "downloading", .requestPermissionsAsync, .setStatus "",
         .toastShow { type := "success",
                      text1 := "Permission denied. Unable to download the image.",
                      position := "bottom" }] ∧
      downloadCalls ((handleDownloadImage host item).trace s) = [] ∧
      statusWrites ((handleDownloadImage host item).trace s) = ["downloading", ""] ∧
      (toasts ((handleDownloadImage host item).trace s)).map ToastParams.text1 =
        ["Permission denied. Unable to download the image."] ∧
      (∀ t ∈ toasts ((handleDownloadImage host item).trace s), t.text1 ≠ "Image downloaded") ∧
      alerts ((handleDownloadImage host item).trace s) = [] := by
  have h : (handleDownloadImage host item).trace s =
      [.setStatus "downloading", .requestPermissionsAsync, .setStatus "",
       .toastShow { type := "success",
                    text1 := "Permission denied. Unable to download the image.",
                    position := "bottom" }] := by
    simp [handleDownloadImage, hperm, hdenied]
  rw [h]
  simp [downloadCalls, statusWrites, toasts, alerts]

/-- Witness for C2: the user of the sample Android phone declines. -/
theorem handleDownloadImage_permission_denied_witness :
    downloadCalls ((handleDownloadImage deniedHost sampleItem).trace Screen.initial) = [] ∧
      statusWrites ((handleDownloadImage deniedHost sampleItem).trace Screen.initial)
        = ["downloading", ""] :=
  ⟨(handleDownloadImage_permission_denied deniedHost sampleItem Screen.initial "denied" rfl
      (by decide)).2.1,
   (handleDownloadImage_permission_denied deniedHost sampleItem Screen.initial "denied" rfl
      (by decide)).2.2.1⟩

/-! ## The transfer -/

/-- C3, as stated, fails on iOS: on the sample iPhone the permanent transfer succeeds
(it returns the downloaded URI) and makes no media-library call at all, neither
`createAssetAsync` nor `createAlbumAsync`. -/
theorem downloadFile_ios_no_media_library :
    iosHost.OS = .ios ∧
      (downloadFile iosHost sampleItem false).result Screen.initial
        = .ok (some "file:///data/user/0/wallpaper/files/abc.jpg") ∧
      assetCalls ((downloadFile iosHost sampleItem false).trace Screen.initial) = [] ∧
      albumCalls ((downloadFile iosHost sampleItem false).trace Screen.initial) = [] ∧
      (assetCalls ((downloadFile iosHost sampleItem false).trace Screen.initial)).length ≠ 1 :=
  ⟨rfl, rfl, rfl, rfl, by decide⟩

/-- C3, amended: when the download resolves to `u`, a permanent `downloadFile` on Android
calls `createAssetAsync` exactly once, with `u`, and, when that call yields an asset, calls
`createAlbumAsync` exactly once, with the album name `"Download"`, that asset and
`copyAsset = false`; on every other platform (iOS, web, Windows, macOS) it makes no
media-library call. -/
theorem downloadFile_media_library_android_only (host : Host) (item : Item) (s : Screen)
    (u : String)
    (hd : host.downloadAsync (imageUrl item) (tempFilePath host item false) = .ok u) :
    (host.OS = .android →
      assetCalls ((downloadFile host item false).trace s) = [u] ∧
      ∀ a, host.createAssetAsync u = .ok a →
        albumCalls ((downloadFile host item false).trace s) = [("Download", a, false)]) ∧
    (host.OS ≠ .android →
      assetCalls ((downloadFile host item false).trace s) = [] ∧
      albumCalls ((downloadFile host item false).trace s) = []) := by
  constructor
  · intro hos
    rcases ha : host.createAssetAsync u with m | a
    · simp [downloadFile_asset_error host item s u m hos hd ha, assetCalls]
    · rcases hb : host.createAlbumAsync "Download" a false with m | x
      · simp [downloadFile_album_error host item s u m a hos hd ha hb, assetCalls, albumCalls]
      · simp [downloadFile_permanent_ok_android host item s u a hos hd ha hb, assetCalls,
          albumCalls]
  · intro hos
    simp [downloadFile_permanent_ok_other host item s u hos hd, assetCalls, albumCalls]

/-- Witness for C3 (amended): the sample Android phone registers one asset and files it
into one album. -/
theorem downloadFile_media_library_android_only_witness :
    assetCalls ((downloadFile androidHost sampleItem false).trace Screen.initial)
        = ["file:///data/user/0/wallpaper/files/abc.jpg"] ∧
      albumCalls ((downloadFile androidHost sampleItem false).trace Screen.initial)
        = [("Download", { id := "1", uri := "file:///data/user/0/wallpaper/files/abc.jpg" },
            false)] :=
  have h := (downloadFile_media_library_android_only androidHost sampleItem Screen.initial
    "file:///data/user/0/wallpaper/files/abc.jpg" rfl).1 rfl
  ⟨h.1, h.2 _ rfl⟩

/-- C4: when the download resolves to `u`, a temporary `downloadFile` returns `u`, registers
exactly one timer, whose callback deletes exactly `u` and whose delay is 10000 ms, and calls
`deleteAsync` zero times before it returns: the deletion happens only when the registered
callback is run.  A permanent `downloadFile` registers no timer and deletes nothing,
whatever the host answers. -/
theorem downloadFile_temporary_schedules_one_deletion (host : Host) (item : Item)
    (s : Screen) (u : String)
    (hd : host.downloadAsync (imageUrl item) (tempFilePath host item true) = .ok u) :
    (downloadFile host item true).result s = .ok (some u) ∧
      timerCalls ((downloadFile host item true).trace s) = [(.deleteAsync u, 10000)] ∧
      ((downloadFile host item true).final s).timers = s.timers ++ [(.deleteAsync u, 10000)] ∧
      deleteCalls ((downloadFile host item true).trace s) = [] ∧
      deleteCalls ((runCallback (.deleteAsync u)).trace ((downloadFile host item true).final s))
        = [u] ∧
      ∀ s1 : Screen,
        timerCalls ((downloadFile host item false).trace s1) = [] ∧
        ((downloadFile host item false).final s1).timers = s1.timers ∧
        deleteCalls ((downloadFile host item false).trace s1) = [] := by
  refine ⟨?_, ?_, ?_, ?_, ?_, ?_⟩
  · simp [downloadFile_temporary_ok host item s u hd]
  · simp [downloadFile_temporary_ok host item s u hd, timerCalls]
  · simp [downloadFile_temporary_ok host item s u hd]
  · simp [downloadFile_temporary_ok host item s u hd, deleteCalls]
  · simp [runCallback, deleteCalls]
  · intro s1
    obtain ⟨r, l, t, h, -, -, -, -, hdel, htim⟩ := downloadFile_total host item false s1
    simp [h, hdel, htim rfl]

/-- Witness for C4: sharing from the sample Android phone. -/
theorem downloadFile_temporary_schedules_one_deletion_witness :
    timerCalls ((downloadFile androidHost sampleItem true).trace Screen.initial)
        = [(.deleteAsync "file:///data/user/0/wallpaper/cache/abc.jpg", 10000)] ∧
      deleteCalls ((downloadFile androidHost sampleItem true).trace Screen.initial) = [] :=
  have h := downloadFile_temporary_schedules_one_deletion androidHost sampleItem
    Screen.initial "file:///data/user/0/wallpaper/cache/abc.jpg" rfl
  ⟨h.2.1, h.2.2.2.1⟩

/-- C9: the download service is called once, and when the directory in use is `dir` (the
cache directory for a temporary transfer, the document directory for a permanent one) the
destination it is given is `dir` followed by the file name, the file name being the part
of `previewURL` after its last `"/"` (all of it when it has none).  The destination does
not depend on the screen state, so two calls with the same request and the same flag use
the same destination. -/
theorem downloadFile_destination_path (host : Host) (item : Item) (isTemporary : Bool)
    (s1 s2 : Screen) (dir url pre name : String)
    (hdir : (if isTemporary then host.cacheDirectory else host.documentDirectory) = some dir)
    (hurl : item.previewURL = some url)
    (hseg : url = pre ++ "/" ++ name ∨ url = name) (hname : '/' ∉ name.data) :
    downloadCalls ((downloadFile host item isTemporary).trace s1)
        = [(imageUrl item, dir ++ name)] ∧
      downloadCalls ((downloadFile host item isTemporary).trace s2)
        = downloadCalls ((downloadFile host item isTemporary).trace s1) := by
  have hpath : tempFilePath host item isTemporary = dir ++ name := by
    cases isTemporary
    · have hdir1 : host.documentDirectory = some dir := by simpa using hdir
      simp [tempFilePath, filePath, fileName_eq item url pre name hurl hseg hname, hdir1,
        renderNull, renderUndefined]
    · have hdir1 : host.cacheDirectory = some dir := by simpa using hdir
      simp [tempFilePath, fileName_eq item url pre name hurl hseg hname, hdir1,
        renderNull, renderUndefined]
  obtain ⟨r1, l1, t1, h1, hc1, -⟩ := downloadFile_total host item isTemporary s1
  obtain ⟨r2, l2, t2, h2, hc2, -⟩ := downloadFile_total host item isTemporary s2
  simp [h1, h2, hc1, hc2, hpath]

/-- Witness for C9: the permanent destination of the sample request on Android ends in
`abc.jpg`. -/
theorem downloadFile_destination_path_witness :
    downloadCalls ((downloadFile androidHost sampleItem false).trace Screen.initial)
      = [(some "https://x/img.jpg", "file:///data/user/0/wallpaper/files/" ++ "abc.jpg")] :=
  (downloadFile_destination_path androidHost sampleItem false Screen.initial Screen.initial
    "file:///data/user/0/wallpaper/files/" "https://x/preview/abc.jpg" "https://x/preview"
    "abc.jpg" rfl rfl (Or.inl (by decide)) (by decide)).1

/-- C8: with the permission granted, when the transfer succeeds (the download resolves to a
non-empty URI and, on Android, the asset and album calls resolve) `handleDownloadImage`
shows exactly one toast, with the text `"Image downloaded"`, and raises no alert; when the
transfer fails with message `m` (the download, the asset call or the album call rejects
with `m`) `downloadFile` returns `null`, exactly one alert is raised, carrying `m`
unchanged, and `handleDownloadImage` shows no toast. -/
theorem handleDownloadImage_granted_notifications (host : Host) (item : Item) (s : Screen)
    (hperm : host.requestPermissionsAsync = .ok "granted") :
    (∀ u, host.downloadAsync (imageUrl item) (tempFilePath host item false) = .ok u →
        u ≠ "" →
        (host.OS ≠ .android ∨
          ∃ a, host.createAssetAsync u = .ok a ∧
            host.createAlbumAsync "Download" a false = .ok ()) →
        (toasts ((handleDownloadImage host item).trace s)).map ToastParams.text1
            = ["Image downloaded"] ∧
          alerts ((handleDownloadImage host item).trace s) = []) ∧
    (∀ m,
        (host.downloadAsync (imageUrl item) (tempFilePath host item false) = .error m ∨
          ∃ u, host.downloadAsync (imageUrl item) (tempFilePath host item false) = .ok u ∧
            host.OS = .android ∧
            (host.createAssetAsync u = .error m ∨
              ∃ a, host.createAssetAsync u = .ok a ∧
                host.createAlbumAsync "Download" a false = .error m)) →
        (∀ s1, (downloadFile host item false).result s1 = .ok none) ∧
          alerts ((handleDownloadImage host item).trace s) = [("Image", m)] ∧
          toasts ((handleDownloadImage host item).trace s) = []) := by
  constructor
  · intro u hd hu hml
    have htr : truthy (some u) = true := by simp [truthy, hu]
    rcases hml with hos | ⟨a, ha, hb⟩
    · simp [handleDownloadImage, hperm, downloadFile_permanent_ok_other host item _ u hos hd,
        htr, toasts, alerts]
    · by_cases hos : host.OS = .android
      · simp [handleDownloadImage, hperm,
          downloadFile_permanent_ok_android host item _ u a hos hd ha hb, htr, toasts, alerts]
      · simp [handleDownloadImage, hperm, downloadFile_permanent_ok_other host item _ u hos hd,
          htr, toasts, alerts]
  · intro m hfail
    rcases hfail with hd | ⟨u, hd, hos, ha | ⟨a, ha, hb⟩⟩
    · simp [handleDownloadImage, hperm, downloadFile_download_error host item false _ m hd,
        truthy, toasts, alerts]
    · simp [handleDownloadImage, hperm, downloadFile_asset_error host item _ u m hos hd ha,
        truthy, toasts, alerts]
    · simp [handleDownloadImage, hperm, downloadFile_album_error host item _ u m a hos hd ha hb,
        truthy, toasts, alerts]

/-- Witness for C8: a successful download on the sample Android phone, and a failed one on
the phone without network. -/
theorem handleDownloadImage_granted_notifications_witness :
    ((toasts ((handleDownloadImage androidHost sampleItem).trace Screen.initial)).map
          ToastParams.text1 = ["Image downloaded"] ∧
        alerts ((handleDownloadImage androidHost sampleItem).trace Screen.initial) = []) ∧
      alerts ((handleDownloadImage offlineHost sampleItem).trace Screen.initial)
        = [("Image", "Network request failed")] ∧
      toasts ((handleDownloadImage offlineHost sampleItem).trace Screen.initial) = [] :=
  ⟨(handleDownloadImage_granted_notifications androidHost sampleItem Screen.initial rfl).1
      "file:///data/user/0/wallpaper/files/abc.jpg" rfl (by decide)
      (Or.inr ⟨{ id := "1", uri := "file:///data/user/0/wallpaper/files/abc.jpg" }, rfl, rfl⟩),
   ((handleDownloadImage_granted_notifications offlineHost sampleItem Screen.initial rfl).2
      "Network request failed" (Or.inl rfl)).2⟩

/-! ## The share flow -/

/-- C7: off the web, whatever the download service and the share sheet answer, the first
thing `handleShareImage` does is write status `"sharing"`, and the status it leaves behind
is `""` (idle), also when `shareAsync` rejects and the handler itself throws.  The share
sheet is invoked exactly once, with the handle, when `downloadFile` produced one (the
download resolved to a non-empty URI), and zero times when it produced none (the download
rejected, or resolved to the empty string, which is falsy). -/
theorem handleShareImage_native (host : Host) (item : Item) (s : Screen)
    (hnative : host.OS ≠ .web) :
    ((handleShareImage host item).trace s).head? = some (.setStatus "sharing") ∧
      (statusWrites ((handleShareImage host item).trace s)).head? = some "sharing" ∧
      ((handleShareImage host item).final s).status = "" ∧
      (∀ u, host.downloadAsync (imageUrl item) (tempFilePath host item true) = .ok u →
        u ≠ "" → shareCalls ((handleShareImage host item).trace s) = [u]) ∧
      (host.downloadAsync (imageUrl item) (tempFilePath host item true) = .ok "" →
        shareCalls ((handleShareImage host item).trace s) = []) ∧
      (∀ m, host.downloadAsync (imageUrl item) (tempFilePath host item true) = .error m →
        shareCalls ((handleShareImage host item).trace s) = []) ∧
      (∀ u m, host.downloadAsync (imageUrl item) (tempFilePath host item true) = .ok u →
        u ≠ "" → host.shareAsync u = .error m →
        (handleShareImage host item).result s = .error m) := by
  rcases hd : host.downloadAsync (imageUrl item) (tempFilePath host item true) with m | u
  · simp [handleShareImage, hnative, downloadFile_download_error host item true _ m hd,
      statusWrites, shareCalls]
  · by_cases hu : u = ""
    · simp [handleShareImage, hnative, downloadFile_temporary_ok host item _ u hd, hu, truthy,
        statusWrites, shareCalls]
      intro v m hv hne
      exact absurd hv.symm hne
    · rcases hs : host.shareAsync u with m | x
      · simp [handleShareImage, hnative, downloadFile_temporary_ok host item _ u hd, hu, truthy,
          statusWrites, shareCalls, hs]
        intro v m1 hv _ hsv
        subst hv
        rw [hs] at hsv
        exact Except.error.inj hsv
      · simp [handleShareImage, hnative, downloadFile_temporary_ok host item _ u hd, hu, truthy,
          statusWrites, shareCalls, hs]
        intro v m1 hv _ hsv
        subst hv
        rw [hs] at hsv
        cases hsv

/-- Witness for C7: on the phone whose share sheet rejects, the handler throws, the share
sheet was invoked once and the status is idle. -/
theorem handleShareImage_native_witness :
    (handleShareImage noShareHost sampleItem).result Screen.initial
        = .error "Sharing is not available" ∧
      shareCalls ((handleShareImage noShareHost sampleItem).trace Screen.initial)
        = ["file:///data/user/0/wallpaper/cache/abc.jpg"] ∧
      ((handleShareImage noShareHost sampleItem).final Screen.initial).status = "" :=
  have h := handleShareImage_native noShareHost sampleItem Screen.initial (by decide)
  ⟨h.2.2.2.2.2.2 "file:///data/user/0/wallpaper/cache/abc.jpg" "Sharing is not available"
      rfl (by decide) rfl,
   h.2.2.2.1 "file:///data/user/0/wallpaper/cache/abc.jpg" rfl (by decide),
   h.2.2.1⟩

/-- C10: on the web, from any screen state, `handleShareImage` performs exactly one
action, a toast with the text `"Link copied"`: it calls neither the download service nor
the share sheet, raises no alert, and leaves the status as it was. -/
theorem handleShareImage_web (host : Host) (item : Item) (s : Screen)
    (hweb : host.OS = .web) :
    (handleShareImage host item).trace s =
        [.toastShow { type := "success", text1 := "Link copied", position := "bottom" }] ∧
      downloadCalls ((handleShareImage host item).trace s) = [] ∧
      shareCalls ((handleShareImage host item).trace s) = [] ∧
      (toasts ((handleShareImage host item).trace s)).map ToastParams.text1
        = ["Link copied"] ∧
      alerts ((handleShareImage host item).trace s) = [] ∧
      ((handleShareImage host item).final s).status = s.status := by
  have h : (handleShareImage host item).trace s =
      [.toastShow { type := "success", text1 := "Link copied", position := "bottom" }] := by
    simp [handleShareImage, hweb]
  rw [h]
  simp [downloadCalls, shareCalls, toasts, alerts, handleShareImage, hweb]

/-- Witness for C10: sharing in the browser while the image is still loading. -/
theorem handleShareImage_web_witness :
    (handleShareImage webHost sampleItem).trace Screen.initial =
        [.toastShow { type := "success", text1 := "Link copied", position := "bottom" }] ∧
      ((handleShareImage webHost sampleItem).final Screen.initial).status = "loading" :=
  have h := handleShareImage_web webHost sampleItem Screen.initial rfl
  ⟨h.1, h.2.2.2.2.2⟩

end ImageScreen
